import Mathlib

/-!
Verification of the glm_awsomify_proxy request-forwarding engine.

Shallow embedding of the Python sources:
* `src/proxy_server.py` — `_fix_missing_tool_responses` (the message repairer),
  `_sanitize_headers`, `_route_to_alternative_api` (the rescue router), and the
  response-classification / bookkeeping logic of `proxy_handler`;
* `src/api_key_manager.py` — `KeyState`, `get_current_key`, `mark_key_rate_limited`.

Python dicts of chat messages are embedded as a structure of their relevant
optional fields (`None` field = absent key); header dicts are embedded as
ordered association lists with unique keys (Python dicts preserve insertion
order, and assignment to a present key keeps its position); `time.time()` is
an explicit `now : Int` parameter.
-/

/-- A chat message (`Dict[str, Any]` in the source).  Each field is `none`
when the corresponding key is absent.  `tool_calls` keeps, for each entry of
the `tool_calls` array, its `id` field (`none` when the entry has no id). -/
structure Msg where
  role : Option String
  tool_calls : Option (List (Option String))
  tool_call_id : Option String
  content : Option String
deriving DecidableEq, Repr

/-- The fake tool response injected by `_fix_missing_tool_responses`:
`{"role": "tool", "tool_call_id": id, "content": "failed"}`. -/
def fakeToolResponse (id : String) : Msg :=
  { role := some "tool", tool_calls := none, tool_call_id := some id, content := some "failed" }

/-- `msg_copy.get('role') == 'assistant' and 'tool_calls' in msg_copy`. -/
def Msg.isAssistantWithCalls (m : Msg) : Bool :=
  m.role == some "assistant" && m.tool_calls.isSome

/-- `msg_copy.get('role') == 'tool' and 'tool_call_id' in msg_copy`. -/
def Msg.isToolResponseMsg (m : Msg) : Bool :=
  m.role == some "tool" && m.tool_call_id.isSome

/-- The ids collected from `msg_copy.get('tool_calls', [])`
(entries without an `'id'` key are skipped). -/
def Msg.callIds (m : Msg) : List String :=
  (m.tool_calls.getD []).filterMap id

/-- The message walk of `_fix_missing_tool_responses` (src/proxy_server.py:94-144):
first argument is the remaining input, second the `pending_tool_calls` list.
`List.erase` matches Python's `if id in pending: pending.remove(id)` (first
occurrence).  On a non-tool message all pending ids are flushed as fake
responses before it; at the end the remainder is flushed. -/
def fixMessages : List Msg → List String → List Msg
  | [], pending => pending.map fakeToolResponse
  | m :: rest, pending =>
    if m.isAssistantWithCalls then
      m :: fixMessages rest (pending ++ m.callIds)
    else if m.isToolResponseMsg then
      m :: fixMessages rest (pending.erase (m.tool_call_id.getD ""))
    else
      pending.map fakeToolResponse ++ m :: fixMessages rest []

/-- `_fix_missing_tool_responses` restricted to the messages array (the
source deep-copies the surrounding request object and replaces `messages`
by this walk started with an empty pending list). -/
def repair (msgs : List Msg) : List Msg := fixMessages msgs []

/-- Is there a tool-response for `id` in `later`? -/
def hasLaterResponse (id : String) (later : List Msg) : Bool :=
  later.any fun r => r.role == some "tool" && r.tool_call_id == some id

/-- How many tool-responses for `id` are in `later`? -/
def countLaterResponses (id : String) (later : List Msg) : Nat :=
  (later.filter fun r => r.role == some "tool" && r.tool_call_id == some id).length

/-- Every tool-invocation id of every assistant-with-calls message is answered
by at least one tool-response later in the sequence. -/
def allCallsAnswered : List Msg → Bool
  | [] => true
  | m :: rest =>
    (!m.isAssistantWithCalls || m.callIds.all fun id => hasLaterResponse id rest)
      && allCallsAnswered rest

/-- Every tool-invocation id of every assistant-with-calls message is answered
by exactly one tool-response later in the sequence (the spec claim's "exactly
once" reading). -/
def allCallsAnsweredExactlyOnce : List Msg → Bool
  | [] => true
  | m :: rest =>
    (!m.isAssistantWithCalls || m.callIds.all fun id => countLaterResponses id rest == 1)
      && allCallsAnsweredExactlyOnce rest

/-- `KeyState` from src/api_key_manager.py (`rate_limited_until` is a Unix
timestamp; we embed instants as `Int`). -/
structure KeyState where
  key : String
  name : String
  rate_limited_until : Int
  error_count : Nat
deriving DecidableEq, Repr

/-- `KeyState.is_available`: `time.time() >= self.rate_limited_until`. -/
def KeyState.isAvailable (s : KeyState) (now : Int) : Bool :=
  decide (s.rate_limited_until ≤ now)

/-- The mutable state of `ApiKeyManager`: the `_key_states` list, the cursor
`_current_index`, and the configured `_cooldown_seconds`. -/
structure Pool where
  states : List KeyState
  currentIndex : Nat
  cooldownSeconds : Int
deriving DecidableEq, Repr

/-- The in-place update applied to the located state:
`state.rate_limited_until = time.time() + self._cooldown_seconds` and
`state.error_count += 1`. -/
def cooled (st : KeyState) (untilTime : Int) : KeyState :=
  { st with rate_limited_until := untilTime, error_count := st.error_count + 1 }

/-- The search-and-update loop of `mark_key_rate_limited`: update the first
state whose `key` equals the given secret (then `break`); `none` when no
state matches. -/
def coolFirst (apiKey : String) (untilTime : Int) : List KeyState → Option (List KeyState)
  | [] => none
  | s :: rest =>
    if s.key = apiKey then some (cooled s untilTime :: rest)
    else (coolFirst apiKey untilTime rest).map (s :: ·)

/-- `ApiKeyManager.mark_key_rate_limited` (src/api_key_manager.py:95-116):
on a hit, set `rate_limited_until = now + cooldown`, bump `error_count`,
and advance `_current_index` by one modulo the pool size; a miss leaves the
state untouched. -/
def markKeyRateLimited (p : Pool) (apiKey : String) (now : Int) : Pool :=
  match coolFirst apiKey (now + p.cooldownSeconds) p.states with
  | none => p
  | some sts => { p with states := sts, currentIndex := (p.currentIndex + 1) % sts.length }

/-- Result of the availability scan inside `get_current_key`. -/
inductive SelectStep where
  | found (key : String) (idx : Nat)
  | exhausted (idx : Nat)
  | outOfRange
deriving DecidableEq, Repr

/-- The scan loop of `get_current_key` (src/api_key_manager.py:69-78): up to
`fuel` iterations starting at `idx`; return the current key when available,
else advance the cursor by one modulo the pool size.  `outOfRange` embeds the
Python `IndexError` on an out-of-bounds cursor (unreachable when the cursor
invariant holds). -/
def selectLoop (states : List KeyState) (now : Int) : Nat → Nat → SelectStep
  | idx, 0 => .exhausted idx
  | idx, fuel + 1 =>
    match states[idx]? with
    | none => .outOfRange
    | some st =>
      if st.isAvailable now then .found st.key idx
      else selectLoop states now ((idx + 1) % states.length) fuel

/-- Index of the state `min(self._key_states, key=lambda k: k.rate_limited_until)`:
Python's `min` returns the first minimal element and `list.index` its first
position, i.e. the first index carrying the minimal `rate_limited_until`. -/
def soonestIndex (l : List KeyState) : Nat :=
  match (l.map fun s => s.rate_limited_until).min? with
  | none => 0
  | some m => l.findIdx fun s => s.rate_limited_until == m

/-- `ApiKeyManager.get_current_key` (src/api_key_manager.py:59-93) at a fixed
instant `now`.  Returns the secret handed out, the pool state left behind, and
the slept duration (`0` when no sleep happened); `none` embeds the unreachable
Python error cases (empty pool / out-of-range cursor). -/
def getCurrentKey (p : Pool) (now : Int) : Option (String × Pool × Int) :=
  match selectLoop p.states now p.currentIndex p.states.length with
  | .found k idx => some (k, { p with currentIndex := idx }, 0)
  | .outOfRange => none
  | .exhausted endIdx =>
    match p.states[soonestIndex p.states]? with
    | none => none
    | some soonest =>
      let waitTime := soonest.rate_limited_until - now
      if waitTime > 0 then
        some (soonest.key, { p with currentIndex := soonestIndex p.states }, waitTime)
      else
        match p.states[endIdx]? with
        | none => none
        | some st => some (st.key, { p with currentIndex := endIdx }, 0)

/-- Per-entry effect of `_sanitize_headers`: the two dict assignments
overwrite the value of an entry whose key is spelled exactly `Authorization`
or exactly `authorization`; every other entry is untouched. -/
def sanitizeEntry (kv : String × String) : String × String :=
  if kv.1 = "Authorization" then (kv.1, "[REDACTED]")
  else if kv.1 = "authorization" then (kv.1, "[REDACTED]")
  else kv

/-- `_sanitize_headers` (src/proxy_server.py:69-79): copy the header dict and
overwrite the values of the keys spelled exactly `Authorization` and exactly
`authorization` with `[REDACTED]` (dict assignment keeps the entry's
position, so the copy is an entrywise map). -/
def sanitizeHeaders (headers : List (String × String)) : List (String × String) :=
  headers.map sanitizeEntry

/-- Constants from the head of src/proxy_server.py. -/
def SYNTHETIC_API_HOST : String := "https://api.synthetic.new/openai/v1/"

/-- Default model for alternative-A (Synthetic). -/
def SYNTHETIC_MODEL : String := "hf:zai-org/GLM-4.6"

/-- Vision override model for alternative-A. -/
def SYNTHETIC_VISION_MODEL : String := "hf:Qwen/Qwen3-VL-235B-A22B-Instruct"

/-- Base URL for alternative-B (Z.ai). -/
def ZAI_API_HOST : String := "https://api.z.ai/api/coding/paas/v4/"

/-- Model for alternative-B. -/
def ZAI_MODEL : String := "glm-4.6"

/-- Python dict assignment `d[k] = v` on an ordered association list with
unique keys: overwrite in place when `k` is present, append otherwise. -/
def dictSet (d : List (String × String)) (k v : String) : List (String × String) :=
  if d.any fun kv => kv.1 == k then
    d.map fun kv => if kv.1 == k then (kv.1, v) else kv
  else d ++ [(k, v)]

/-- Python's `str.lower()` on header names (ASCII lowering, character by
character — header names are ASCII). -/
def lowerKey (s : String) : String := ⟨s.data.map Char.toLower⟩

/-- The header comprehension used before each upstream call:
`{k: v for k, v in original_headers.items() if k.lower() not in ('authorization', 'host', 'content-length')}`. -/
def stripHopHeaders (orig : List (String × String)) : List (String × String) :=
  orig.filter fun kv =>
    !(lowerKey kv.1 == "authorization" || lowerKey kv.1 == "host" ||
      lowerKey kv.1 == "content-length")

/-- The outbound headers built in `_route_to_alternative_api`: strip, then set
`Authorization`, `User-Agent` and `Content-Length`. -/
def altHeaders (orig : List (String × String)) (key : String) (bodyLen : Nat) :
    List (String × String) :=
  dictSet
    (dictSet (dictSet (stripHopHeaders orig) "Authorization" ("Bearer " ++ key))
      "User-Agent" "Cerebras-Proxy/1.0")
    "Content-Length" (toString bodyLen)

/-- Outcome of one upstream HTTP call: a response, or an exception raised by
the client (`except Exception` in the rescue router). -/
inductive HttpResult where
  | resp (status : Nat) (body : String)
  | transportError
deriving DecidableEq, Repr

/-- What was posted to one alternative upstream: target URL, the `model`
field of the serialized payload (`none` when the inbound payload had no
`model` key), and the outbound headers. -/
structure AltRequest where
  url : String
  payloadModel : Option String
  headers : List (String × String)
deriving DecidableEq, Repr

/-- Where the response served by the rescue router came from. -/
inductive RescueSource where
  | fromSyn
  | fromZai
  | internalZaiFail
  | internalNone
deriving DecidableEq, Repr

/-- Did the served rescue response come from an upstream (as opposed to an
internally produced 503)? -/
def RescueSource.isUpstream : RescueSource → Bool
  | .fromSyn => true
  | .fromZai => true
  | _ => false

/-- Observable outcome of `_route_to_alternative_api`: which upstreams were
contacted and with what, the served status, its source, and how many times
`_save_request_response_log` was called. -/
structure RescueOutcome where
  synAttempt : Option AltRequest
  zaiAttempt : Option AltRequest
  status : Nat
  source : RescueSource
  records : Nat
deriving DecidableEq, Repr

/-- The Z.ai leg of `_route_to_alternative_api` (src/proxy_server.py:248-292):
when a Z.ai key is configured, post and return its response regardless of
status (logging it); a transport error yields an unlogged 503
`All alternative APIs failed`; no key yields an unlogged 503
`No alternative APIs configured`. -/
def zaiStep (zaiKey : Option String) (reqModel : Option String) (path : String)
    (origHeaders : List (String × String)) (zaiBodyLen : Nat) (zaiResult : HttpResult)
    (synAtt : Option AltRequest) : RescueOutcome :=
  match zaiKey with
  | some zk =>
    let att : AltRequest :=
      ⟨ZAI_API_HOST ++ path, reqModel.map fun _ => ZAI_MODEL, altHeaders origHeaders zk zaiBodyLen⟩
    match zaiResult with
    | .resp st _ => ⟨synAtt, some att, st, .fromZai, 1⟩
    | .transportError => ⟨synAtt, some att, 503, .internalZaiFail, 0⟩
  | none => ⟨synAtt, none, 503, .internalNone, 0⟩

/-- `_route_to_alternative_api` (src/proxy_server.py:173-292).  The payload's
`model` field is rewritten only when present (`if 'model' in ...`); the
Synthetic leg uses `override_model` when given, else `SYNTHETIC_MODEL`; its
response is returned (and logged) only when `status < 400`, otherwise — and on
a transport error — the Z.ai leg runs. -/
def routeToAlternative (synKey zaiKey : Option String) (overrideModel reqModel : Option String)
    (path : String) (origHeaders : List (String × String)) (synBodyLen zaiBodyLen : Nat)
    (synResult zaiResult : HttpResult) : RescueOutcome :=
  let synModel := overrideModel.getD SYNTHETIC_MODEL
  match synKey with
  | some sk =>
    let att : AltRequest :=
      ⟨SYNTHETIC_API_HOST ++ path, reqModel.map fun _ => synModel, altHeaders origHeaders sk synBodyLen⟩
    match synResult with
    | .resp st _ =>
      if st < 400 then ⟨some att, none, st, .fromSyn, 1⟩
      else zaiStep zaiKey reqModel path origHeaders zaiBodyLen zaiResult (some att)
    | .transportError => zaiStep zaiKey reqModel path origHeaders zaiBodyLen zaiResult (some att)
  | none => zaiStep zaiKey reqModel path origHeaders zaiBodyLen zaiResult none

/-- What the forward engine sees of one primary-upstream response: the status,
the first choice's message content (`none` when the body is not JSON, has no
choices, or the content is not a string — all the `except` paths), and the
parsed error code for 400s (`error.code` or top-level `code`). -/
structure UpstreamResp where
  status : Nat
  firstChoiceContent : Option String
  errorCode : Option String
deriving DecidableEq, Repr

/-- Static configuration consulted by the attempt loop of `proxy_handler`:
whether the Synthetic / Z.ai keys are configured, whether
`request_data_for_routing` is available, and `fallback_on_cooldown`. -/
structure EngineCfg where
  syntheticKey : Bool
  zaiKey : Bool
  hasRoutingData : Bool
  fallbackOnCooldown : Bool
deriving DecidableEq, Repr

/-- `(self.synthetic_api_key or self.zai_api_key) and request_data_for_routing`. -/
def rescueReady (cfg : EngineCfg) : Bool :=
  (cfg.syntheticKey || cfg.zaiKey) && cfg.hasRoutingData

/-- Does `needle` begin `hay`? (character-level, for Python's `in`). -/
def startsWithList : List Char → List Char → Bool
  | _, [] => true
  | [], _ :: _ => false
  | c :: cs, p :: ps => c == p && startsWithList cs ps

/-- Does `needle` occur contiguously in the second argument? -/
def containsSubList (needle : List Char) : List Char → Bool
  | [] => startsWithList [] needle
  | c :: cs => startsWithList (c :: cs) needle || containsSubList needle cs

/-- Python's substring test `needle in hay`. -/
def strContains (hay needle : String) : Bool := containsSubList needle.data hay.data

/-- `'token quota is not enough' in message_content` (Python substring test
on the first choice's content; `false` on any parse failure). -/
def hasQuotaMsg (r : UpstreamResp) : Bool :=
  match r.firstChoiceContent with
  | some c => strContains c "token quota is not enough"
  | none => false

/-- What the attempt loop does next after classifying one response. -/
inductive NextAction where
  | cont
  | rescue
  | ret
deriving DecidableEq, Repr

/-- One attempt's classification: the next action plus whether
`mark_key_rate_limited` / `mark_key_success` were called on the used key. -/
structure AttemptOutcome where
  action : NextAction
  markCooled : Bool
  markSuccess : Bool
deriving DecidableEq, Repr

/-- The per-response branch of the attempt loop in `proxy_handler`
(src/proxy_server.py:689-798; the GET/HEAD/OPTIONS arm at 554-674 duplicates
it verbatim).  `allCoolingAfterMark` stands for the
`await self.api_key_manager.all_keys_rate_limited()` probe made after cooling
the key on 429/500.  Note that the 400-without-rescue and 503-without-rescue
branches fall out of the `elif` chain without a `return`, so the loop
continues; and that the embedded-quota rescue returns before
`mark_key_success` runs. -/
def classifyAttempt (cfg : EngineCfg) (allCoolingAfterMark : Bool) (r : UpstreamResp) :
    AttemptOutcome :=
  if r.status = 429 || r.status = 500 then
    if cfg.fallbackOnCooldown && allCoolingAfterMark && rescueReady cfg then
      ⟨.rescue, true, false⟩
    else ⟨.cont, true, false⟩
  else if r.status = 400 then
    if r.errorCode == some "context_length_exceeded" && rescueReady cfg then
      ⟨.rescue, false, false⟩
    else ⟨.cont, false, false⟩
  else if r.status = 503 then
    if rescueReady cfg then ⟨.rescue, false, false⟩ else ⟨.cont, false, false⟩
  else if r.status < 400 then
    if hasQuotaMsg r && rescueReady cfg then ⟨.rescue, false, false⟩
    else ⟨.ret, false, true⟩
  else ⟨.ret, false, false⟩

/-- One iteration of the attempt loop as seen from outside: a response (with
the all-cooling probe's verdict), an `aiohttp.ClientError`, or any other
exception with its message. -/
inductive AttemptEvent where
  | resp (r : UpstreamResp) (allCoolingAfterMark : Bool)
  | clientError
  | otherError (msg : String)
deriving DecidableEq, Repr

/-- The response finally served by `proxy_handler`. -/
inductive Served where
  | auth401 (code : String)
  | primaryResp (status : Nat)
  | rescued (o : RescueOutcome)
  | proxyError (body : String)
  | exhausted503
deriving DecidableEq, Repr

/-- Was the served response obtained from an upstream (primary or rescue),
as opposed to produced internally by the proxy? -/
def Served.fromUpstream : Served → Bool
  | .primaryResp _ => true
  | .rescued o => o.source.isUpstream
  | _ => false

/-- Observable outcome of one `proxy_handler` run: the served response, the
number of `_save_request_response_log` calls, and the number of
`mark_key_rate_limited` / `mark_key_success` calls. -/
structure HandlerResult where
  served : Served
  records : Nat
  cooledMarks : Nat
  successMarks : Nat
deriving DecidableEq, Repr

/-- The retry loop of `proxy_handler` (src/proxy_server.py:543-812) run over a
script of attempt events (the script length plays the role of `max_retries`).
An exhausted script yields the unlogged 503 `Maximum retries exceeded`; an
unexpected exception immediately yields the unlogged 500 `Proxy error: ...`;
an `aiohttp.ClientError` cools the key and continues. -/
def runAttempts (cfg : EngineCfg) (resc : RescueOutcome) : List AttemptEvent → HandlerResult
  | [] => ⟨.exhausted503, 0, 0, 0⟩
  | .otherError msg :: _ => ⟨.proxyError ("Proxy error: " ++ msg), 0, 0, 0⟩
  | .clientError :: rest =>
    let res := runAttempts cfg resc rest
    { res with cooledMarks := res.cooledMarks + 1 }
  | .resp r ac :: rest =>
    let oc := classifyAttempt cfg ac r
    match oc.action with
    | .cont =>
      let res := runAttempts cfg resc rest
      { res with cooledMarks := res.cooledMarks + (if oc.markCooled then 1 else 0) }
    | .rescue => ⟨.rescued resc, resc.records, if oc.markCooled then 1 else 0, 0⟩
    | .ret => ⟨.primaryResp r.status, 1, 0, if oc.markSuccess then 1 else 0⟩

/-- `auth_header.split()` — Python's whitespace split discarding empty
parts. -/
def parseBearer (h : String) : List String :=
  (h.split Char.isWhitespace).filter fun s => s ≠ ""

/-- The authentication gate plus attempt loop of `proxy_handler`
(src/proxy_server.py:389-415 then 543-812).  `authHeader` is
`request.headers.get('Authorization', '')` with `none` for an absent header;
`validKeys` abstracts `incoming_key_manager.verify_api_key`.  The three 401
rejections are served without any capture record. -/
def runHandler (incomingAuthEnabled : Bool) (authHeader : Option String)
    (validKeys : List String) (cfg : EngineCfg) (resc : RescueOutcome)
    (events : List AttemptEvent) : HandlerResult :=
  if incomingAuthEnabled then
    match authHeader with
    | none => ⟨.auth401 "missing_authorization", 0, 0, 0⟩
    | some h =>
      if h = "" then ⟨.auth401 "missing_authorization", 0, 0, 0⟩
      else if (parseBearer h).length ≠ 2 || ((parseBearer h).headD "").toLower ≠ "bearer" then
        ⟨.auth401 "invalid_authorization", 0, 0, 0⟩
      else if !(validKeys.contains ((parseBearer h).getD 1 "")) then
        ⟨.auth401 "invalid_api_key", 0, 0, 0⟩
      else runAttempts cfg resc events
  else runAttempts cfg resc events

/-! ### Lemmas about the message repairer -/

theorem fixMessages_nil (pending : List String) :
    fixMessages [] pending = pending.map fakeToolResponse := rfl

theorem fixMessages_awc {m : Msg} (h : m.isAssistantWithCalls = true)
    (rest : List Msg) (pending : List String) :
    fixMessages (m :: rest) pending = m :: fixMessages rest (pending ++ m.callIds) := by
  simp [fixMessages, h]

theorem fixMessages_tool {m : Msg} (h1 : m.isAssistantWithCalls = false)
    (h2 : m.isToolResponseMsg = true) (rest : List Msg) (pending : List String) :
    fixMessages (m :: rest) pending =
      m :: fixMessages rest (pending.erase (m.tool_call_id.getD "")) := by
  simp [fixMessages, h1, h2]

theorem fixMessages_other {m : Msg} (h1 : m.isAssistantWithCalls = false)
    (h2 : m.isToolResponseMsg = false) (rest : List Msg) (pending : List String) :
    fixMessages (m :: rest) pending =
      pending.map fakeToolResponse ++ m :: fixMessages rest [] := by
  simp [fixMessages, h1, h2]

theorem fakeToolResponse_not_awc (id : String) :
    (fakeToolResponse id).isAssistantWithCalls = false := rfl

theorem fakeToolResponse_is_tool (id : String) :
    (fakeToolResponse id).isToolResponseMsg = true := rfl

theorem fakeToolResponse_tcid (id : String) :
    (fakeToolResponse id).tool_call_id.getD "" = id := rfl

/-- Processing a run of fake responses whose ids head the pending list leaves
them unchanged and consumes exactly those pending ids. -/
theorem fixMessages_flush (l : List String) (q : List String) (tail : List Msg) :
    fixMessages (l.map fakeToolResponse ++ tail) (l ++ q) =
      l.map fakeToolResponse ++ fixMessages tail q := by
  induction l with
  | nil => simp
  | cons a l ih =>
    simp only [List.map_cons, List.cons_append]
    rw [fixMessages_tool (fakeToolResponse_not_awc a) (fakeToolResponse_is_tool a),
      fakeToolResponse_tcid, List.erase_cons_head, ih]

theorem fixMessages_idem (msgs : List Msg) :
    ∀ pending, fixMessages (fixMessages msgs pending) pending = fixMessages msgs pending := by
  induction msgs with
  | nil =>
    intro pending
    rw [fixMessages_nil]
    have h := fixMessages_flush pending [] []
    rw [fixMessages_nil] at h
    simpa using h
  | cons m rest ih =>
    intro pending
    by_cases hA : m.isAssistantWithCalls = true
    · rw [fixMessages_awc hA, fixMessages_awc hA, ih]
    · have hA' : m.isAssistantWithCalls = false := by simpa using hA
      by_cases hT : m.isToolResponseMsg = true
      · rw [fixMessages_tool hA' hT, fixMessages_tool hA' hT, ih]
      · have hT' : m.isToolResponseMsg = false := by simpa using hT
        rw [fixMessages_other hA' hT']
        have h2 := fixMessages_flush pending [] (m :: fixMessages rest [])
        simp only [List.append_nil] at h2
        rw [h2, fixMessages_other hA' hT']
        simp [ih []]

theorem fixMessages_sublist (msgs : List Msg) :
    ∀ pending, msgs.Sublist (fixMessages msgs pending) := by
  induction msgs with
  | nil => intro pending; exact List.nil_sublist _
  | cons m rest ih =>
    intro pending
    by_cases hA : m.isAssistantWithCalls = true
    · rw [fixMessages_awc hA]; exact (ih _).cons₂ m
    · have hA' : m.isAssistantWithCalls = false := by simpa using hA
      by_cases hT : m.isToolResponseMsg = true
      · rw [fixMessages_tool hA' hT]; exact (ih _).cons₂ m
      · have hT' : m.isToolResponseMsg = false := by simpa using hT
        rw [fixMessages_other hA' hT']
        exact ((ih []).cons₂ m).trans (List.sublist_append_right _ _)

theorem hasLaterResponse_cons (id : String) (m : Msg) (l : List Msg) :
    hasLaterResponse id (m :: l) =
      ((m.role == some "tool" && m.tool_call_id == some id) || hasLaterResponse id l) := rfl

/-- Every id in the pending list is answered somewhere in the walk's output. -/
theorem hasLaterResponse_fixMessages (msgs : List Msg) :
    ∀ pending id, id ∈ pending → hasLaterResponse id (fixMessages msgs pending) = true := by
  induction msgs with
  | nil =>
    intro pending id hid
    rw [fixMessages_nil]
    simp only [hasLaterResponse, List.any_eq_true]
    exact ⟨fakeToolResponse id, List.mem_map_of_mem _ hid, by simp [fakeToolResponse]⟩
  | cons m rest ih =>
    intro pending id hid
    by_cases hA : m.isAssistantWithCalls = true
    · rw [fixMessages_awc hA, hasLaterResponse_cons,
        ih (pending ++ m.callIds) id (List.mem_append_left _ hid)]
      simp
    · have hA' : m.isAssistantWithCalls = false := by simpa using hA
      by_cases hT : m.isToolResponseMsg = true
      · have hT2 := hT
        simp only [Msg.isToolResponseMsg, Bool.and_eq_true, beq_iff_eq,
          Option.isSome_iff_exists] at hT2
        obtain ⟨hrole, tid, htid⟩ := hT2
        rw [fixMessages_tool hA' hT, hasLaterResponse_cons]
        by_cases hidtid : id = tid
        · subst hidtid
          simp [hrole, htid]
        · have hmem : id ∈ pending.erase (m.tool_call_id.getD "") := by
            rw [htid]
            simpa using (List.mem_erase_of_ne hidtid).mpr hid
          rw [ih _ id hmem]
          simp
      · have hT' : m.isToolResponseMsg = false := by simpa using hT
        rw [fixMessages_other hA' hT']
        simp only [hasLaterResponse, List.any_append, Bool.or_eq_true]
        refine Or.inl ?_
        rw [List.any_eq_true]
        exact ⟨fakeToolResponse id, List.mem_map_of_mem _ hid, by simp [fakeToolResponse]⟩

theorem allCallsAnswered_cons (m : Msg) (l : List Msg) :
    allCallsAnswered (m :: l) =
      ((!m.isAssistantWithCalls || m.callIds.all fun id => hasLaterResponse id l)
        && allCallsAnswered l) := rfl

theorem allCallsAnswered_flush (l : List String) (rest : List Msg) :
    allCallsAnswered (l.map fakeToolResponse ++ rest) = allCallsAnswered rest := by
  induction l with
  | nil => rfl
  | cons a l ih =>
    simp only [List.map_cons, List.cons_append, allCallsAnswered_cons, ih,
      fakeToolResponse_not_awc]
    simp

theorem allCallsAnswered_fixMessages (msgs : List Msg) :
    ∀ pending, allCallsAnswered (fixMessages msgs pending) = true := by
  induction msgs with
  | nil =>
    intro pending
    rw [fixMessages_nil]
    have h := allCallsAnswered_flush pending []
    simpa using h
  | cons m rest ih =>
    intro pending
    by_cases hA : m.isAssistantWithCalls = true
    · rw [fixMessages_awc hA, allCallsAnswered_cons]
      have hall : (m.callIds.all fun id =>
          hasLaterResponse id (fixMessages rest (pending ++ m.callIds))) = true := by
        rw [List.all_eq_true]
        intro id hid
        exact hasLaterResponse_fixMessages rest (pending ++ m.callIds) id
          (List.mem_append_right _ hid)
      rw [hall, ih]
      simp
    · have hA' : m.isAssistantWithCalls = false := by simpa using hA
      by_cases hT : m.isToolResponseMsg = true
      · rw [fixMessages_tool hA' hT, allCallsAnswered_cons, hA', ih]
        simp
      · have hT' : m.isToolResponseMsg = false := by simpa using hT
        rw [fixMessages_other hA' hT', allCallsAnswered_flush, allCallsAnswered_cons, hA', ih]
        simp

/-- Every message of the walk's output is an input message or a fake response. -/
theorem mem_fixMessages (msgs : List Msg) :
    ∀ pending x, x ∈ fixMessages msgs pending →
      x ∈ msgs ∨ ∃ id, x = fakeToolResponse id := by
  induction msgs with
  | nil =>
    intro pending x hx
    rw [fixMessages_nil] at hx
    obtain ⟨id, -, rfl⟩ := List.mem_map.mp hx
    exact Or.inr ⟨id, rfl⟩
  | cons m rest ih =>
    intro pending x hx
    by_cases hA : m.isAssistantWithCalls = true
    · rw [fixMessages_awc hA] at hx
      rcases List.mem_cons.mp hx with h | h
      · exact Or.inl (h ▸ List.mem_cons_self m rest)
      · rcases ih _ x h with h' | h'
        · exact Or.inl (List.mem_cons_of_mem m h')
        · exact Or.inr h'
    · have hA' : m.isAssistantWithCalls = false := by simpa using hA
      by_cases hT : m.isToolResponseMsg = true
      · rw [fixMessages_tool hA' hT] at hx
        rcases List.mem_cons.mp hx with h | h
        · exact Or.inl (h ▸ List.mem_cons_self m rest)
        · rcases ih _ x h with h' | h'
          · exact Or.inl (List.mem_cons_of_mem m h')
          · exact Or.inr h'
      · have hT' : m.isToolResponseMsg = false := by simpa using hT
        rw [fixMessages_other hA' hT'] at hx
        rcases List.mem_append.mp hx with h | h
        · obtain ⟨id, -, rfl⟩ := List.mem_map.mp h
          exact Or.inr ⟨id, rfl⟩
        · rcases List.mem_cons.mp h with h2 | h2
          · exact Or.inl (h2 ▸ List.mem_cons_self m rest)
          · rcases ih [] x h2 with h' | h'
            · exact Or.inl (List.mem_cons_of_mem m h')
            · exact Or.inr h'

/-! ### Concrete messages used by witnesses and counterexamples -/

/-- An assistant message carrying one tool invocation `t1`. -/
def msgAsst : Msg :=
  { role := some "assistant", tool_calls := some [some "t1"], tool_call_id := none,
    content := none }

/-- A plain user message. -/
def msgUser : Msg :=
  { role := some "user", tool_calls := none, tool_call_id := none, content := some "hi" }

/-- A real tool response answering `t1`. -/
def msgToolT1 : Msg :=
  { role := some "tool", tool_calls := none, tool_call_id := some "t1", content := some "ok" }

/-! ### C1 -/

/-- C1 (amended): in the output of `repair`, every tool-invocation id carried
by an assistant-with-calls message is answered by at least one tool-response
with that id as its `tool_call_id` later in the sequence, and every message of
the output is either an input message or a synthesized tool response with role
`tool` and content `failed`. -/
theorem repair_calls_answered (m : List Msg) :
    allCallsAnswered (repair m) = true ∧
      ∀ x, x ∈ repair m → x ∈ m ∨ ∃ id, x = fakeToolResponse id :=
  ⟨allCallsAnswered_fixMessages m [], fun x hx => mem_fixMessages m [] x hx⟩

/-- C1 witness: on `[msgAsst, msgUser]` the repairer injects `fakeToolResponse "t1"`,
which is a synthesized response, and the output answers every invocation. -/
theorem repair_calls_answered_witness :
    allCallsAnswered (repair [msgAsst, msgUser]) = true ∧
      (fakeToolResponse "t1" ∈ [msgAsst, msgUser] ∨
        ∃ id, fakeToolResponse "t1" = fakeToolResponse id) :=
  ⟨(repair_calls_answered [msgAsst, msgUser]).1,
   (repair_calls_answered [msgAsst, msgUser]).2 (fakeToolResponse "t1") (by decide)⟩

/-- C1 counterexample: with input `[msgAsst, msgToolT1, msgToolT1]` the repairer
is the identity and the invocation id `t1` is answered by two tool responses,
so "exactly one" fails on the output of `repair`. -/
theorem repair_exactly_once_counterexample :
    repair [msgAsst, msgToolT1, msgToolT1] = [msgAsst, msgToolT1, msgToolT1] ∧
      allCallsAnsweredExactlyOnce (repair [msgAsst, msgToolT1, msgToolT1]) = false := by
  decide

/-! ### C2 -/

/-- C2: the message repairer is idempotent — `repair (repair m) = repair m`. -/
theorem repair_idem (m : List Msg) : repair (repair m) = repair m :=
  fixMessages_idem m []

/-! ### C8 -/

/-- C8: the input embeds order-preservingly into the output of `repair`:
every input message appears unmodified, in the same relative order
(`List.Sublist` is exactly the order-preserving-embedding relation). -/
theorem repair_preserves_input (m : List Msg) : m.Sublist (repair m) :=
  fixMessages_sublist m []

/-! ### C5 — Mark-cooled -/

theorem coolFirst_eq_none (k : String) (u : Int) (l : List KeyState)
    (h : ∀ st, st ∈ l → st.key ≠ k) : coolFirst k u l = none := by
  induction l with
  | nil => rfl
  | cons s rest ih =>
    have hs : ¬s.key = k := h s (List.mem_cons_self s rest)
    simp only [coolFirst]
    rw [if_neg hs, ih fun st hst => h st (List.mem_cons_of_mem s hst)]
    rfl

theorem coolFirst_eq_some (k : String) (u : Int) (pre : List KeyState) (st : KeyState)
    (post : List KeyState) (hkey : st.key = k) (hpre : ∀ x, x ∈ pre → x.key ≠ k) :
    coolFirst k u (pre ++ st :: post) = some (pre ++ cooled st u :: post) := by
  induction pre with
  | nil =>
    simp only [List.nil_append, coolFirst]
    rw [if_pos hkey]
  | cons a pre ih =>
    have ha : ¬a.key = k := hpre a (List.mem_cons_self a pre)
    simp only [List.cons_append, coolFirst]
    rw [if_neg ha]
    change (coolFirst k u (pre ++ st :: post)).map (a :: ·) =
      some (a :: (pre ++ cooled st u :: post))
    rw [ih fun x hx => hpre x (List.mem_cons_of_mem a hx)]
    rfl

/-- C5: `mark_key_rate_limited` with a secret not in the pool leaves the pool
untouched; with a secret that names a credential (split as `pre ++ st :: post`
with `st` the first match) it sets that credential's `rate_limited_until` to
`now + cooldown` (so it is unavailable at every instant before that), bumps
its `error_count` by one, leaves every other credential alone, and advances
the cursor one position modulo the pool size. -/
theorem mark_cooled_spec (p : Pool) (s : String) (now : Int) :
    ((∀ st, st ∈ p.states → st.key ≠ s) → markKeyRateLimited p s now = p) ∧
    (∀ pre st post, p.states = pre ++ st :: post → st.key = s →
        (∀ x, x ∈ pre → x.key ≠ s) →
      (markKeyRateLimited p s now).states =
          pre ++ cooled st (now + p.cooldownSeconds) :: post ∧
        (markKeyRateLimited p s now).currentIndex =
          (p.currentIndex + 1) % p.states.length ∧
        (markKeyRateLimited p s now).cooldownSeconds = p.cooldownSeconds ∧
        ∀ t : Int, t < now + p.cooldownSeconds →
          KeyState.isAvailable (cooled st (now + p.cooldownSeconds)) t = false) := by
  constructor
  · intro h
    unfold markKeyRateLimited
    rw [coolFirst_eq_none s (now + p.cooldownSeconds) p.states h]
  · intro pre st post hsplit hkey hpre
    have hcf := coolFirst_eq_some s (now + p.cooldownSeconds) pre st post hkey hpre
    have hlen : (pre ++ cooled st (now + p.cooldownSeconds) :: post).length =
        p.states.length := by
      rw [hsplit]; simp
    refine ⟨?_, ?_, ?_, ?_⟩
    · unfold markKeyRateLimited
      rw [hsplit, hcf]
    · unfold markKeyRateLimited
      rw [hsplit, hcf]
      simp
    · unfold markKeyRateLimited
      rw [hsplit, hcf]
    · intro t ht
      simp only [KeyState.isAvailable, cooled]
      rw [decide_eq_false_iff_not]
      omega

/-- One-credential pool used by the C5 witness. -/
def poolW : Pool := ⟨[⟨"k1", "a", 0, 0⟩], 0, 60⟩

/-- C5 witness: marking `k1` cooled at instant 100 in a one-credential pool
with cooldown 60 sets `rate_limited_until` to 160, bumps the error count to 1,
wraps the cursor to 0, and the credential is unavailable at instant 159. -/
theorem mark_cooled_spec_witness :
    (markKeyRateLimited poolW "k1" 100).states = [⟨"k1", "a", 160, 1⟩] ∧
      (markKeyRateLimited poolW "k1" 100).currentIndex = 0 ∧
      KeyState.isAvailable ⟨"k1", "a", 160, 1⟩ 159 = false := by
  have h := (mark_cooled_spec poolW "k1" 100).2 [] ⟨"k1", "a", 0, 0⟩ []
    rfl rfl (fun x hx => absurd hx (List.not_mem_nil x))
  refine ⟨?_, ?_, ?_⟩
  · have h1 := h.1
    simpa [poolW, cooled] using h1
  · have h2 := h.2.1
    simpa [poolW] using h2
  · have h4 := h.2.2.2 159 (by decide)
    simpa [poolW, cooled] using h4

/-! ### C6 — Select under cooling -/

/-- If some index reachable within `fuel` ring steps from `idx` holds an
available credential, the scan loop finds an available credential. -/
theorem selectLoop_finds (states : List KeyState) (now : Int) :
    ∀ fuel idx, idx < states.length →
      (∃ j, j < fuel ∧ ∃ st, states[(idx + j) % states.length]? = some st ∧
        st.isAvailable now = true) →
      ∃ k i st, selectLoop states now idx fuel = .found k i ∧
        states[i]? = some st ∧ st.isAvailable now = true ∧ st.key = k := by
  intro fuel
  induction fuel with
  | zero =>
    intro idx _ h
    obtain ⟨j, hj, -⟩ := h
    omega
  | succ fuel ih =>
    intro idx hidx h
    have hst0 : states[idx]? = some (states[idx]) := List.getElem?_eq_getElem hidx
    cases havail0 : (states[idx]).isAvailable now with
    | true =>
      refine ⟨(states[idx]).key, idx, states[idx], ?_, hst0, havail0, rfl⟩
      simp [selectLoop, hst0, havail0]
    | false =>
      obtain ⟨j, hj, st, hst, hav⟩ := h
      have hN : 0 < states.length := by omega
      cases j with
      | zero =>
        rw [Nat.add_zero, Nat.mod_eq_of_lt hidx, hst0] at hst
        cases hst
        rw [havail0] at hav
        cases hav
      | succ j' =>
        have hidx' : (idx + 1) % states.length < states.length := Nat.mod_lt _ hN
        have hwit : ∃ j, j < fuel ∧ ∃ st,
            states[((idx + 1) % states.length + j) % states.length]? = some st ∧
              st.isAvailable now = true := by
          refine ⟨j', by omega, st, ?_, hav⟩
          have heq : ((idx + 1) % states.length + j') % states.length =
              (idx + (j' + 1)) % states.length := by
            rw [Nat.mod_add_mod]
            congr 1
            omega
          rw [heq]
          exact hst
        have hrec := ih ((idx + 1) % states.length) hidx' hwit
        simpa [selectLoop, hst0, havail0] using hrec

/-- C6: in a pool whose cursor points at a cooling credential while at least
one credential is available, `get_current_key` returns the secret of an
available credential with a zero sleep, leaving the cursor on that
credential's position. -/
theorem select_under_cooling (p : Pool) (now : Int)
    (hidx : p.currentIndex < p.states.length)
    (_hcur : ∃ st, p.states[p.currentIndex]? = some st ∧ st.isAvailable now = false)
    (havail : ∃ st, st ∈ p.states ∧ st.isAvailable now = true) :
    ∃ k i st, getCurrentKey p now = some (k, { p with currentIndex := i }, 0) ∧
      p.states[i]? = some st ∧ st.isAvailable now = true ∧ st.key = k := by
  obtain ⟨stA, hmem, hav⟩ := havail
  obtain ⟨jj, hjj, hjeq⟩ := List.mem_iff_getElem.mp hmem
  have hwit : ∃ j, j < p.states.length ∧ ∃ st,
      p.states[(p.currentIndex + j) % p.states.length]? = some st ∧
        st.isAvailable now = true := by
    by_cases hle : p.currentIndex ≤ jj
    · refine ⟨jj - p.currentIndex, by omega, stA, ?_, hav⟩
      rw [Nat.add_sub_cancel' hle, Nat.mod_eq_of_lt hjj,
        List.getElem?_eq_getElem hjj, hjeq]
    · refine ⟨jj + p.states.length - p.currentIndex, by omega, stA, ?_, hav⟩
      have hle2 : p.currentIndex ≤ jj + p.states.length := by omega
      rw [Nat.add_sub_cancel' hle2, Nat.add_mod_right, Nat.mod_eq_of_lt hjj,
        List.getElem?_eq_getElem hjj, hjeq]
  obtain ⟨k, i, st, hloop, hsti, hstav, hkey⟩ :=
    selectLoop_finds p.states now p.states.length p.currentIndex hidx hwit
  refine ⟨k, i, st, ?_, hsti, hstav, hkey⟩
  unfold getCurrentKey
  rw [hloop]

/-- Two-credential pool used by the C6 witness: the cursor points at the
cooling credential `k0`, `k1` is available. -/
def poolC6 : Pool := ⟨[⟨"k0", "a", 10, 0⟩, ⟨"k1", "b", 0, 0⟩], 0, 60⟩

/-- C6 witness: at instant 5 the pool `poolC6` has its current credential
cooling and `k1` available, and `get_current_key` hands out an available
credential without sleeping. -/
theorem select_under_cooling_witness :
    ∃ k i st, getCurrentKey poolC6 5 = some (k, { poolC6 with currentIndex := i }, 0) ∧
      poolC6.states[i]? = some st ∧ st.isAvailable 5 = true ∧ st.key = k :=
  select_under_cooling poolC6 5 (by decide)
    ⟨⟨"k0", "a", 10, 0⟩, by decide, by decide⟩
    ⟨⟨"k1", "b", 0, 0⟩, by decide, by decide⟩

/-! ### C9 — Header sanitization -/

theorem sanitizeEntry_congr (a b : String × String) (hk : a.1 = b.1)
    (hv : a.1 = "Authorization" ∨ a.1 = "authorization" ∨ a.2 = b.2) :
    sanitizeEntry a = sanitizeEntry b := by
  have hk' : b.1 = a.1 := hk.symm
  rcases hv with h | h | h
  · simp [sanitizeEntry, hk', h]
  · simp [sanitizeEntry, hk', h]
  · have hab : a = b := Prod.ext hk h
    rw [hab]

/-- C9 (amended): sanitization is value-blind exactly for the two spellings
the source handles — two header maps that agree entrywise on keys and differ
only in values of entries whose key is exactly `Authorization` or exactly
`authorization` sanitize to equal maps.  (Case-insensitivity fails: other
casings such as `AUTHORIZATION` are passed through unredacted.) -/
theorem sanitize_exact_spellings (h1 h2 : List (String × String))
    (hrel : List.Forall₂
      (fun a b => a.1 = b.1 ∧ (a.1 = "Authorization" ∨ a.1 = "authorization" ∨ a.2 = b.2))
      h1 h2) :
    sanitizeHeaders h1 = sanitizeHeaders h2 := by
  induction hrel with
  | nil => rfl
  | cons hab htail ih =>
    simp only [sanitizeHeaders, List.map_cons]
    rw [sanitizeEntry_congr _ _ hab.1 hab.2]
    simp only [sanitizeHeaders] at ih
    rw [ih]

/-- C9 witness: two maps differing only in the value of an exactly spelled
`Authorization` entry sanitize to the same map. -/
theorem sanitize_exact_spellings_witness :
    sanitizeHeaders [("Authorization", "Bearer aaa"), ("Accept", "json")] =
      sanitizeHeaders [("Authorization", "Bearer bbb"), ("Accept", "json")] :=
  sanitize_exact_spellings _ _
    (List.Forall₂.cons ⟨rfl, Or.inl rfl⟩
      (List.Forall₂.cons ⟨rfl, Or.inr (Or.inr rfl)⟩ List.Forall₂.nil))

/-- C9 counterexample: `AUTHORIZATION` equals `authorization` under
case-insensitive comparison, yet two header maps differing only in its value
sanitize to different maps — the secret survives sanitization verbatim. -/
theorem sanitize_case_counterexample :
    lowerKey "AUTHORIZATION" = "authorization" ∧
      sanitizeHeaders [("AUTHORIZATION", "secret-a")] ≠
        sanitizeHeaders [("AUTHORIZATION", "secret-b")] ∧
      sanitizeHeaders [("AUTHORIZATION", "secret-a")] =
        [("AUTHORIZATION", "secret-a")] := by
  refine ⟨by decide, by decide, by decide⟩

/-! ### C3 — Ok responses: Mark-success vs embedded-quota rescue -/

/-- Engine configuration with alternative-A configured and routing data
available (rescue ready). -/
def cfgResc : EngineCfg := ⟨true, false, true, false⟩

/-- A 200 response whose first choice's message content embeds the upstream
quota failure text. -/
def quotaResp : UpstreamResp :=
  ⟨200, some "Error: token quota is not enough today", none⟩

/-- C3 counterexample: on a 200 response carrying "token quota is not enough"
with a rescue credential configured, the engine dispatches to the Rescue
Router but does NOT call `mark_key_success` — the rescue `return` precedes the
`mark_key_success` call — refuting "for every attempt whose response status is
below 400 the Forward Engine calls Mark-success". -/
theorem quota_rescue_skips_mark_success :
    quotaResp.status < 400 ∧
      (classifyAttempt cfgResc false quotaResp).action = NextAction.rescue ∧
      (classifyAttempt cfgResc false quotaResp).markSuccess = false := by
  refine ⟨by decide, by decide, by decide⟩

/-- C3 (amended): for every primary-upstream attempt whose response status is
below 400 — if the first choice's content contains "token quota is not
enough" and a rescue path is ready, the engine dispatches to the Rescue
Router without calling Mark-success; otherwise it calls Mark-success and
returns the response to the client. -/
theorem ok_response_spec (cfg : EngineCfg) (ac : Bool) (r : UpstreamResp)
    (h : r.status < 400) :
    ((hasQuotaMsg r && rescueReady cfg) = true →
      classifyAttempt cfg ac r = ⟨NextAction.rescue, false, false⟩) ∧
    ((hasQuotaMsg r && rescueReady cfg) = false →
      classifyAttempt cfg ac r = ⟨NextAction.ret, false, true⟩) := by
  constructor
  · intro hq
    unfold classifyAttempt
    rw [if_neg (by simp; omega), if_neg (by omega), if_neg (by omega),
      if_pos h, if_pos hq]
  · intro hq
    unfold classifyAttempt
    rw [if_neg (by simp; omega), if_neg (by omega), if_neg (by omega),
      if_pos h, if_neg (by simp [hq])]

/-- C3 witness: a plain 200 response without the quota text gets Mark-success
and is returned. -/
theorem ok_response_spec_witness :
    classifyAttempt cfgResc false ⟨200, none, none⟩ = ⟨NextAction.ret, false, true⟩ :=
  (ok_response_spec cfgResc false ⟨200, none, none⟩ (by decide)).2 (by decide)

/-! ### C7 — Rescue router dispatch -/

/-- Overwriting the value of a key whose lowercase form is not
`authorization` does not change the authorization entries. -/
theorem filter_auth_overwrite (d : List (String × String)) (k v : String)
    (hk : lowerKey k ≠ "authorization") :
    ((d.map fun kv => if kv.1 == k then (kv.1, v) else kv).filter
        fun kv => lowerKey kv.1 == "authorization") =
      d.filter fun kv => lowerKey kv.1 == "authorization" := by
  rw [List.filter_map]
  have hcomp : ∀ kv ∈ d, ((fun kv : String × String => lowerKey kv.1 == "authorization") ∘
      fun kv : String × String => if kv.1 == k then (kv.1, v) else kv) kv =
      (fun kv : String × String => lowerKey kv.1 == "authorization") kv := by
    intro kv _
    by_cases hkv : kv.1 = k
    · simp [hkv]
    · simp [hkv]
  rw [List.filter_congr hcomp]
  have hid : ∀ kv ∈ d.filter fun kv : String × String => lowerKey kv.1 == "authorization",
      (if kv.1 == k then ((kv.1 : String), v) else kv) = kv := by
    intro kv hkv
    have hp := List.of_mem_filter hkv
    rw [beq_iff_eq] at hp
    have hkvk : ¬((kv.1 == k) = true) := by
      intro hcontra
      rw [beq_iff_eq] at hcontra
      apply hk
      rw [← hcontra]
      exact hp
    rw [if_neg hkvk]
  calc ((d.filter fun kv : String × String => lowerKey kv.1 == "authorization").map
        fun kv : String × String => if kv.1 == k then (kv.1, v) else kv)
      = (d.filter fun kv : String × String => lowerKey kv.1 == "authorization").map id := by
        exact List.map_congr_left hid
    _ = d.filter fun kv : String × String => lowerKey kv.1 == "authorization" := List.map_id _

/-- `dictSet` with a key whose lowercase form is not `authorization` does not
change the authorization entries. -/
theorem filter_auth_dictSet_other (d : List (String × String)) (k v : String)
    (hk : lowerKey k ≠ "authorization") :
    ((dictSet d k v).filter fun kv => lowerKey kv.1 == "authorization") =
      d.filter fun kv => lowerKey kv.1 == "authorization" := by
  unfold dictSet
  by_cases hany : (d.any fun kv => kv.1 == k) = true
  · rw [if_pos hany]
    exact filter_auth_overwrite d k v hk
  · rw [if_neg hany, List.filter_append]
    have hsingle : ([(k, v)].filter fun kv => lowerKey kv.1 == "authorization") = [] := by
      simp only [List.filter_cons, List.filter_nil]
      rw [if_neg]
      intro hcontra
      rw [beq_iff_eq] at hcontra
      exact hk hcontra
    rw [hsingle, List.append_nil]

/-- No entry of the stripped headers has an authorization key. -/
theorem filter_auth_strip (orig : List (String × String)) :
    ((stripHopHeaders orig).filter fun kv => lowerKey kv.1 == "authorization") = [] := by
  rw [List.filter_eq_nil_iff]
  intro kv hkv
  have hmem := List.of_mem_filter hkv
  simp only [Bool.not_eq_true', Bool.or_eq_false_iff] at hmem
  simp [hmem.1.1]

/-- The stripped headers contain no key spelled exactly `Authorization`. -/
theorem strip_no_exact_auth (orig : List (String × String)) :
    ((stripHopHeaders orig).any fun kv => kv.1 == "Authorization") = false := by
  rw [List.any_eq_false]
  intro kv hkv
  have hmem := List.of_mem_filter hkv
  simp only [Bool.not_eq_true', Bool.or_eq_false_iff] at hmem
  intro hcontra
  rw [beq_iff_eq] at hcontra
  have hlow : (lowerKey kv.1 == "authorization") = true := by
    rw [hcontra]; decide
  rw [hmem.1.1] at hlow
  cases hlow

/-- The headers sent to an alternative upstream carry exactly one
authorization entry: `Authorization: Bearer <that upstream's key>`. -/
theorem altHeaders_auth (orig : List (String × String)) (key : String) (len : Nat) :
    ((altHeaders orig key len).filter fun kv => lowerKey kv.1 == "authorization") =
      [("Authorization", "Bearer " ++ key)] := by
  unfold altHeaders
  rw [filter_auth_dictSet_other _ "Content-Length" _ (by decide),
    filter_auth_dictSet_other _ "User-Agent" _ (by decide)]
  unfold dictSet
  rw [if_neg (by rw [strip_no_exact_auth orig]; simp), List.filter_append, filter_auth_strip,
    List.nil_append]
  simp only [List.filter_cons, List.filter_nil]
  rw [if_pos (by decide)]

/-- The Z.ai leg never changes the recorded Synthetic attempt. -/
theorem zaiStep_synAttempt (zaiKey reqM : Option String) (path : String)
    (hs : List (String × String)) (zl : Nat) (zr : HttpResult)
    (synAtt0 : Option AltRequest) :
    (zaiStep zaiKey reqM path hs zl zr synAtt0).synAttempt = synAtt0 := by
  unfold zaiStep
  cases zaiKey <;> cases zr <;> rfl

/-- Unfolding of the Synthetic leg on an HTTP response. -/
theorem routeToAlternative_syn_resp (zaiKey : Option String) (ov reqM : Option String)
    (path : String) (hs : List (String × String)) (sl zl : Nat) (zr : HttpResult)
    (sk : String) (st : Nat) (b : String) :
    routeToAlternative (some sk) zaiKey ov reqM path hs sl zl (.resp st b) zr =
      if st < 400 then
        ⟨some ⟨SYNTHETIC_API_HOST ++ path, reqM.map fun _ => ov.getD SYNTHETIC_MODEL,
          altHeaders hs sk sl⟩, none, st, .fromSyn, 1⟩
      else
        zaiStep zaiKey reqM path hs zl zr
          (some ⟨SYNTHETIC_API_HOST ++ path, reqM.map fun _ => ov.getD SYNTHETIC_MODEL,
            altHeaders hs sk sl⟩) := rfl

/-- Unfolding of the Synthetic leg on a transport error. -/
theorem routeToAlternative_syn_err (zaiKey : Option String) (ov reqM : Option String)
    (path : String) (hs : List (String × String)) (sl zl : Nat) (zr : HttpResult)
    (sk : String) :
    routeToAlternative (some sk) zaiKey ov reqM path hs sl zl .transportError zr =
      zaiStep zaiKey reqM path hs zl zr
        (some ⟨SYNTHETIC_API_HOST ++ path, reqM.map fun _ => ov.getD SYNTHETIC_MODEL,
          altHeaders hs sk sl⟩) := rfl

/-- Unfolding when alternative-A is not configured. -/
theorem routeToAlternative_noSyn (zaiKey : Option String) (ov reqM : Option String)
    (path : String) (hs : List (String × String)) (sl zl : Nat) (sr zr : HttpResult) :
    routeToAlternative none zaiKey ov reqM path hs sl zl sr zr =
      zaiStep zaiKey reqM path hs zl zr none := rfl

/-- C7: dispatch of `_route_to_alternative_api` — with alternative-A
configured the payload's `model` (when present) is rewritten to A's model or
the vision override and posted to A's URL with only A's credential in
`Authorization`; A's response is returned iff its status is `< 400`, and on a
`≥ 400` status or transport error dispatch proceeds to the Z.ai leg with the
attempt recorded; with A absent dispatch starts at the Z.ai leg; the Z.ai leg
returns B's response regardless of status; with neither configured the router
answers an internal 503. -/
theorem rescue_dispatch_spec (synKey zaiKey : Option String) (ov reqM : Option String)
    (path : String) (hs : List (String × String)) (sl zl : Nat) (sr zr : HttpResult) :
    (∀ sk, synKey = some sk →
      (routeToAlternative synKey zaiKey ov reqM path hs sl zl sr zr).synAttempt =
          some ⟨SYNTHETIC_API_HOST ++ path, reqM.map fun _ => ov.getD SYNTHETIC_MODEL,
            altHeaders hs sk sl⟩ ∧
        ((altHeaders hs sk sl).filter fun kv => lowerKey kv.1 == "authorization") =
          [("Authorization", "Bearer " ++ sk)]) ∧
    (∀ sk st b, synKey = some sk → sr = .resp st b → st < 400 →
      routeToAlternative synKey zaiKey ov reqM path hs sl zl sr zr =
        ⟨some ⟨SYNTHETIC_API_HOST ++ path, reqM.map fun _ => ov.getD SYNTHETIC_MODEL,
          altHeaders hs sk sl⟩, none, st, .fromSyn, 1⟩) ∧
    (∀ sk st b, synKey = some sk → sr = .resp st b → ¬st < 400 →
      routeToAlternative synKey zaiKey ov reqM path hs sl zl sr zr =
        zaiStep zaiKey reqM path hs zl zr
          (some ⟨SYNTHETIC_API_HOST ++ path, reqM.map fun _ => ov.getD SYNTHETIC_MODEL,
            altHeaders hs sk sl⟩)) ∧
    (∀ sk, synKey = some sk → sr = .transportError →
      routeToAlternative synKey zaiKey ov reqM path hs sl zl sr zr =
        zaiStep zaiKey reqM path hs zl zr
          (some ⟨SYNTHETIC_API_HOST ++ path, reqM.map fun _ => ov.getD SYNTHETIC_MODEL,
            altHeaders hs sk sl⟩)) ∧
    (synKey = none →
      routeToAlternative synKey zaiKey ov reqM path hs sl zl sr zr =
        zaiStep zaiKey reqM path hs zl zr none) ∧
    (∀ synAtt0 zk st b, zaiKey = some zk → zr = .resp st b →
      zaiStep zaiKey reqM path hs zl zr synAtt0 =
        ⟨synAtt0, some ⟨ZAI_API_HOST ++ path, reqM.map fun _ => ZAI_MODEL,
          altHeaders hs zk zl⟩, st, .fromZai, 1⟩) ∧
    (synKey = none → zaiKey = none →
      routeToAlternative synKey zaiKey ov reqM path hs sl zl sr zr =
        ⟨none, none, 503, .internalNone, 0⟩) := by
  refine ⟨?_, ?_, ?_, ?_, ?_, ?_, ?_⟩
  · intro sk hsk
    subst hsk
    refine ⟨?_, altHeaders_auth hs sk sl⟩
    cases sr with
    | transportError => rw [routeToAlternative_syn_err, zaiStep_synAttempt]
    | resp st b =>
      rw [routeToAlternative_syn_resp]
      by_cases hst : st < 400
      · rw [if_pos hst]
      · rw [if_neg hst, zaiStep_synAttempt]
  · intro sk st b hsk hsr hst
    subst hsk; subst hsr
    rw [routeToAlternative_syn_resp, if_pos hst]
  · intro sk st b hsk hsr hst
    subst hsk; subst hsr
    rw [routeToAlternative_syn_resp, if_neg hst]
  · intro sk hsk hsr
    subst hsk; subst hsr
    rfl
  · intro hsk
    subst hsk
    rfl
  · intro synAtt0 zk st b hzk hzr
    subst hzk; subst hzr
    rfl
  · intro hsk hzk
    subst hsk; subst hzk
    rfl

/-- C7 witness: with both alternatives configured, a 500 from Synthetic falls
through to Z.ai, whose 502 response is returned (regardless of status). -/
theorem rescue_dispatch_spec_witness :
    (routeToAlternative (some "sk") (some "zk") none (some "m") "chat/completions" []
        5 6 (.resp 500 "err") (.resp 502 "bad")).source = RescueSource.fromZai ∧
      (routeToAlternative (some "sk") (some "zk") none (some "m") "chat/completions" []
        5 6 (.resp 500 "err") (.resp 502 "bad")).status = 502 := by
  obtain ⟨-, -, h3, -, -, h6, -⟩ := rescue_dispatch_spec (some "sk") (some "zk") none
    (some "m") "chat/completions" [] 5 6 (.resp 500 "err") (.resp 502 "bad")
  have hz := h6 (some ⟨SYNTHETIC_API_HOST ++ "chat/completions",
    (some "m").map fun _ => Option.getD none SYNTHETIC_MODEL,
    altHeaders [] "sk" 5⟩) "zk" 502 "bad" rfl rfl
  rw [h3 "sk" 500 "err" rfl rfl (by omega), hz]
  exact ⟨rfl, rfl⟩

/-! ### C4 — Capture records per served response -/

/-- The rescue router logs exactly one capture record when it serves an
upstream response and none when it serves an internal 503. -/
theorem rescue_records (synKey zaiKey : Option String) (ov reqM : Option String)
    (path : String) (hs : List (String × String)) (sl zl : Nat) (sr zr : HttpResult) :
    (routeToAlternative synKey zaiKey ov reqM path hs sl zl sr zr).records =
      if (routeToAlternative synKey zaiKey ov reqM path hs sl zl sr zr).source.isUpstream
      then 1 else 0 := by
  cases synKey with
  | none =>
    rw [routeToAlternative_noSyn]
    unfold zaiStep
    cases zaiKey <;> cases zr <;> rfl
  | some sk =>
    cases sr with
    | transportError =>
      rw [routeToAlternative_syn_err]
      unfold zaiStep
      cases zaiKey <;> cases zr <;> rfl
    | resp st b =>
      rw [routeToAlternative_syn_resp]
      by_cases hst : st < 400
      · rw [if_pos hst]
        rfl
      · rw [if_neg hst]
        unfold zaiStep
        cases zaiKey <;> cases zr <;> rfl

/-- Over any attempt script, the number of capture records equals one exactly
when the served response came from an upstream. -/
theorem runAttempts_records (cfg : EngineCfg) (resc : RescueOutcome)
    (hresc : resc.records = if resc.source.isUpstream then 1 else 0) :
    ∀ events, (runAttempts cfg resc events).records =
      if (runAttempts cfg resc events).served.fromUpstream then 1 else 0 := by
  intro events
  induction events with
  | nil => rfl
  | cons e rest ih =>
    cases e with
    | otherError msg => rfl
    | clientError =>
      simpa [runAttempts] using ih
    | resp r ac =>
      rcases hoc : classifyAttempt cfg ac r with ⟨act, mc, ms⟩
      cases act with
      | cont =>
        simp only [runAttempts, hoc]
        simpa using ih
      | rescue =>
        simp only [runAttempts, hoc]
        simpa [Served.fromUpstream] using hresc
      | ret =>
        simp only [runAttempts, hoc]
        rfl

/-- C4 (amended): over the modeled handler (authentication gate, attempt
loop, rescue router), a capture record is written exactly once when the
served response was obtained from an upstream (primary, Synthetic or Z.ai),
and never for internally produced responses: the three 401 rejections, the
500 `Proxy error`, the 503 `Maximum retries exceeded`, and the rescue
router's internal 503s. -/
theorem record_per_served (authOn : Bool) (ah : Option String) (vk : List String)
    (cfg : EngineCfg) (synKey zaiKey : Option String) (ov reqM : Option String)
    (path : String) (hs : List (String × String)) (sl zl : Nat) (sr zr : HttpResult)
    (events : List AttemptEvent) :
    (runHandler authOn ah vk cfg
        (routeToAlternative synKey zaiKey ov reqM path hs sl zl sr zr) events).records =
      if (runHandler authOn ah vk cfg
          (routeToAlternative synKey zaiKey ov reqM path hs sl zl sr zr)
          events).served.fromUpstream
      then 1 else 0 := by
  have hrun := runAttempts_records cfg _
    (rescue_records synKey zaiKey ov reqM path hs sl zl sr zr)
  cases authOn with
  | false => exact hrun events
  | true =>
    cases ah with
    | none => rfl
    | some h =>
      simp only [runHandler, if_true]
      by_cases hempty : h = ""
      · rw [if_pos hempty]
        rfl
      · rw [if_neg hempty]
        by_cases hform : ((parseBearer h).length ≠ 2 ||
            ((parseBearer h).headD "").toLower ≠ "bearer" : Bool) = true
        · rw [if_pos hform]
          rfl
        · rw [if_neg hform]
          by_cases hkey : (!vk.contains ((parseBearer h).getD 1 "")) = true
          · rw [if_pos hkey]
            rfl
          · rw [if_neg hkey]
            exact hrun events

/-- Engine configuration with nothing configured (no rescue, no fallback). -/
def cfgNone : EngineCfg := ⟨false, false, false, false⟩

/-- A concrete rescue outcome (never reached in the counterexample run). -/
def resc503 : RescueOutcome :=
  routeToAlternative none none none none "" [] 0 0 .transportError .transportError

/-- C4 counterexample: a run whose single attempt gets a 429 (no rescue
configured) exhausts the retry budget; the proxy serves the internally
produced 503 `Maximum retries exceeded` — which is not a 401 — with zero
calls to the capture sink, refuting "record exactly once per served response
... including ... the 503 returned when retries are exhausted". -/
theorem exhausted_503_not_recorded :
    (runHandler false none [] cfgNone resc503
        [.resp ⟨429, none, none⟩ false]).served = Served.exhausted503 ∧
      (runHandler false none [] cfgNone resc503
        [.resp ⟨429, none, none⟩ false]).records = 0 := by
  refine ⟨by decide, by decide⟩

/-! ### C10 — Unexpected exception path -/

/-- C10: an exception that is not an `aiohttp.ClientError` during a primary
attempt makes the handler return at once a 500 whose body is
`Proxy error: <message>` — independent of the remaining retry budget, with no
capture record and no `mark_key_rate_limited` or `mark_key_success` call. -/
theorem proxy_error_spec (cfg : EngineCfg) (resc : RescueOutcome) (msg : String)
    (rest : List AttemptEvent) :
    runAttempts cfg resc (.otherError msg :: rest) =
      ⟨Served.proxyError ("Proxy error: " ++ msg), 0, 0, 0⟩ := rfl
